import Mathlib

/-!
Verification of the simulation kernel of the tragedy-of-the-commons
repository: a shallow embedding in Lean 4 of the fixed-timestep scheduler
(SimulationEngine), the logistic-growth grid, the wear grid, the
diffusion-advection grid, the A* pathfinder, the M/M/1 queue model and the
boid flocking system, together with theorems settling the frozen claims
about them.

JavaScript numbers are modelled exactly: as rationals where the source
only uses field operations, floor, min and max, and as reals where the
source takes square roots.  Float32Array cell stores are modelled as
lists of rationals.  While-loops become well-founded or fuel-bounded
recursion; in-place mutation becomes explicit state passing.
-/

set_option maxHeartbeats 1600000

/-! ## Scheduler constants (core/types.ts) -/

/-- SPEED_OPTIONS = [0.25, 0.5, 1, 2, 4]. -/
def SPEED_OPTIONS : List ℚ := [1/4, 1/2, 1, 2, 4]

/-- FIXED_DT = 1 / 60 (60 Hz simulation). -/
def FIXED_DT : ℚ := 1 / 60

/-! ## SimulationEngine (core/SimulationEngine.ts)

State is `{ isPlaying, speed, elapsed }` plus the private `accumulator`
and `lastTime` fields.  `requestAnimationFrame` bookkeeping, callbacks
and the state-change observer carry no numeric state and are dropped;
instead `loop` returns the list of `(dt, elapsed)` argument pairs passed
to the update callback during that tick, in call order. -/

structure SimulationState where
  isPlaying : Bool
  speed : ℚ
  elapsed : ℚ
  deriving Repr, DecidableEq

structure SimulationEngine where
  state : SimulationState
  accumulator : ℚ
  lastTime : ℚ
  deriving Repr, DecidableEq

namespace SimulationEngine

/-- Initial state of a fresh engine: playing, speed 1, elapsed 0. -/
def init : SimulationEngine :=
  { state := { isPlaying := true, speed := 1, elapsed := 0 }
    accumulator := 0
    lastTime := 0 }

/-- The while-loop of `loop`: while accumulator >= FIXED_DT, call
onUpdate(FIXED_DT, elapsed), then elapsed += FIXED_DT and
accumulator -= FIXED_DT.  Returns the emitted calls, the final elapsed
and the final accumulator. -/
def drain (elapsed acc : ℚ) : List (ℚ × ℚ) × ℚ × ℚ :=
  if h : FIXED_DT ≤ acc then
    let rest := drain (elapsed + FIXED_DT) (acc - FIXED_DT)
    ((FIXED_DT, elapsed) :: rest.1, rest.2)
  else
    ([], elapsed, acc)
  termination_by (acc * 60).floor.toNat
  decreasing_by
    have h60 : ((acc - FIXED_DT) * 60).floor = (acc * 60).floor - 1 := by
      have : (acc - FIXED_DT) * 60 = acc * 60 - 1 := by
        simp only [FIXED_DT]; ring
      rw [this]
      exact_mod_cast Int.floor_sub_int (acc * 60) 1
    have hpos : (1 : ℤ) ≤ (acc * 60).floor := by
      have h1 : (1 : ℚ) ≤ acc * 60 := by
        have := mul_le_mul_of_nonneg_right h (by norm_num : (0:ℚ) ≤ 60)
        simpa [FIXED_DT] using this
      exact Int.le_floor.mpr (by exact_mod_cast h1)
    omega

/-- One invocation of the private `loop(timestamp)` callback.  Returns
the new engine and the `(dt, elapsed)` pairs passed to onUpdate. -/
def loop (e : SimulationEngine) (timestamp : ℚ) : SimulationEngine × List (ℚ × ℚ) :=
  let rawDt := min ((timestamp - e.lastTime) / 1000) (2/10)
  let e1 := { e with lastTime := timestamp }
  if e1.state.isPlaying = false then
    (e1, [])
  else
    let effectiveDt := rawDt * e1.state.speed
    let acc := e1.accumulator + effectiveDt
    let r := drain e1.state.elapsed acc
    ({ e1 with
        state := { e1.state with elapsed := r.2.1 }
        accumulator := r.2.2 }, r.1)

def play (e : SimulationEngine) : SimulationEngine :=
  { e with state := { e.state with isPlaying := true } }

def pause (e : SimulationEngine) : SimulationEngine :=
  { e with state := { e.state with isPlaying := false } }

def togglePlay (e : SimulationEngine) : SimulationEngine :=
  if e.state.isPlaying then pause e else play e

/-- setSpeed(speed): only takes effect if SPEED_OPTIONS.includes(speed). -/
def setSpeed (e : SimulationEngine) (speed : ℚ) : SimulationEngine :=
  if speed ∈ SPEED_OPTIONS then
    { e with state := { e.state with speed := speed } }
  else e

/-- JavaScript Array.prototype.indexOf: index of the first occurrence,
or -1 when the value is absent. -/
def jsIndexOf : List ℚ → ℚ → ℤ
  | [], _ => -1
  | a :: rest, v =>
    if a = v then 0
    else
      let r := jsIndexOf rest v
      if r = -1 then -1 else r + 1

/-- JavaScript array read SPEED_OPTIONS[i] for the (in-range) indices
the engine produces. -/
def speedAt (i : ℤ) : ℚ := SPEED_OPTIONS.getD i.toNat 0

def faster (e : SimulationEngine) : SimulationEngine :=
  let idx := jsIndexOf SPEED_OPTIONS e.state.speed
  if idx < (SPEED_OPTIONS.length : ℤ) - 1 then
    { e with state := { e.state with speed := speedAt (idx + 1) } }
  else e

def slower (e : SimulationEngine) : SimulationEngine :=
  let idx := jsIndexOf SPEED_OPTIONS e.state.speed
  if 0 < idx then
    { e with state := { e.state with speed := speedAt (idx - 1) } }
  else e

/-- reset(): zero elapsed and accumulator, keep play state and speed. -/
def reset (e : SimulationEngine) : SimulationEngine :=
  { e with state := { e.state with elapsed := 0 }, accumulator := 0 }

def getState (e : SimulationEngine) : SimulationState := e.state

/-- The public events a caller can direct at a running engine (render
callbacks mutate nothing and are omitted; start/stop only manage the
animation-frame handle). -/
inductive Event where
  | tick (timestamp : ℚ)
  | play
  | pause
  | togglePlay
  | setSpeed (v : ℚ)
  | faster
  | slower
  | reset
  deriving Repr, DecidableEq

/-- Apply one event; ticks emit update calls. -/
def step (e : SimulationEngine) : Event → SimulationEngine × List (ℚ × ℚ)
  | .tick t => loop e t
  | .play => (play e, [])
  | .pause => (pause e, [])
  | .togglePlay => (togglePlay e, [])
  | .setSpeed v => (setSpeed e v, [])
  | .faster => (faster e, [])
  | .slower => (slower e, [])
  | .reset => (reset e, [])

/-- Run a sequence of events, concatenating the update calls emitted. -/
def run (e : SimulationEngine) : List Event → SimulationEngine × List (ℚ × ℚ)
  | [] => (e, [])
  | ev :: evs =>
    let r := step e ev
    let rest := run r.1 evs
    (rest.1, r.2 ++ rest.2)

end SimulationEngine

/-! ## Logistic growth (simulation/LogisticGrowth.ts) -/

/-- logisticGrowthRate(N, r, K) = r * N * (1 - N / K).  The rational
division N / K matches the JS division only for K ≠ 0: at K = 0 the
source produces NaN (0/0) where ℚ yields 0, so every theorem below
stays on the spec's documented domain K > 0. -/
def logisticGrowthRate (N r K : ℚ) : ℚ := r * N * (1 - N / K)

/-- logisticGrowthStep: one Euler step, clamped into [0, K].  Faithful
for K > 0; at K = 0 the source's Math.min/Math.max would propagate the
NaN from logisticGrowthRate instead of clamping. -/
def logisticGrowthStep (N r K dt : ℚ) : ℚ :=
  let dN := logisticGrowthRate N r K * dt
  max 0 (min K (N + dN))

/-- LogisticGrid: a width x height Float32Array of cell values plus the
parameters r and K.  Coordinates handed to get/set/consume are integers
(the JS callers pass integer grid coordinates). -/
structure LogisticGrid where
  width : ℕ
  height : ℕ
  r : ℚ
  K : ℚ
  data : List ℚ
  deriving Repr, DecidableEq

namespace LogisticGrid

/-- Constructor: data = new Float32Array(width * height) filled with K. -/
def init (width height : ℕ) (r K : ℚ) : LogisticGrid :=
  { width := width, height := height, r := r, K := K
    data := List.replicate (width * height) K }

def setParams (g : LogisticGrid) (r K : ℚ) : LogisticGrid :=
  { g with r := r, K := K }

/-- Coordinate bounds test x < 0 || x >= width || y < 0 || y >= height. -/
def outOfRange (g : LogisticGrid) (x y : ℤ) : Prop :=
  x < 0 ∨ (g.width : ℤ) ≤ x ∨ y < 0 ∨ (g.height : ℤ) ≤ y

instance (g : LogisticGrid) (x y : ℤ) : Decidable (g.outOfRange x y) := by
  unfold outOfRange; infer_instance

/-- get(x, y): 0 when out of range, else data[y * width + x]. -/
def get (g : LogisticGrid) (x y : ℤ) : ℚ :=
  if g.outOfRange x y then 0
  else g.data.getD (y * g.width + x).toNat 0

/-- set(x, y, value): no-op when out of range, else store the value
clamped into [0, K]. -/
def set (g : LogisticGrid) (x y : ℤ) (value : ℚ) : LogisticGrid :=
  if g.outOfRange x y then g
  else { g with
          data := g.data.set (y * g.width + x).toNat (max 0 (min g.K value)) }

/-- consume(x, y, amount): guards only the flattened index
idx = y * width + x against [0, data.length); subtracts
min(current, amount) at idx and returns it. -/
def consume (g : LogisticGrid) (x y : ℤ) (amount : ℚ) : LogisticGrid × ℚ :=
  let idx := y * g.width + x
  if idx < 0 ∨ (g.data.length : ℤ) ≤ idx then (g, 0)
  else
    let current := g.data.getD idx.toNat 0
    let consumed := min current amount
    ({ g with data := g.data.set idx.toNat (current - consumed) }, consumed)

/-- update(dt): one clamped Euler step on every cell independently. -/
def update (g : LogisticGrid) (dt : ℚ) : LogisticGrid :=
  { g with data := g.data.map (fun N => logisticGrowthStep N g.r g.K dt) }

/-- reset(): data.fill(K). -/
def reset (g : LogisticGrid) : LogisticGrid :=
  { g with data := g.data.map (fun _ => g.K) }

def getTotal (g : LogisticGrid) : ℚ := g.data.sum

/-- States reachable through the public operations, with each argument
in its documented domain: the constructor takes K > 0 as the spec
requires (at K = 0 the source's update would turn cells into NaN, so
the rational model is only faithful on K > 0), consume takes a
non-negative extraction amount, and setParams never lowers K below its
current value. -/
inductive Reachable : LogisticGrid → Prop
  | init (width height : ℕ) (r K : ℚ) (hK : 0 < K) :
      Reachable (init width height r K)
  | set (g : LogisticGrid) (x y : ℤ) (value : ℚ) :
      Reachable g → Reachable (g.set x y value)
  | consume (g : LogisticGrid) (x y : ℤ) (amount : ℚ) (ha : 0 ≤ amount) :
      Reachable g → Reachable (g.consume x y amount).1
  | update (g : LogisticGrid) (dt : ℚ) :
      Reachable g → Reachable (g.update dt)
  | reset (g : LogisticGrid) :
      Reachable g → Reachable g.reset
  | setParams (g : LogisticGrid) (r K : ℚ) (hK : g.K ≤ K) :
      Reachable g → Reachable (g.setParams r K)

end LogisticGrid

/-- equilibriumPopulation(r, K, consumptionRate): the larger root of
rN(1 - N/K) = C, or -1 when C exceeds rK/4 or the discriminant is
negative. -/
noncomputable def equilibriumPopulation (r K consumptionRate : ℝ) : ℝ :=
  let maxGrowth := r * K / 4
  if maxGrowth < consumptionRate then -1
  else
    let discriminant := (K / 2) ^ 2 - consumptionRate * K / r
    if discriminant < 0 then -1
    else K / 2 + Real.sqrt discriminant

/-! ## Wear grid (simulation/LogisticGrowth.ts, WearGrid) -/

/-- WearGrid: cell health in [0,1], 1 = pristine. -/
structure WearGrid where
  width : ℕ
  height : ℕ
  recoveryRate : ℚ
  durability : ℚ
  data : List ℚ
  deriving Repr, DecidableEq

namespace WearGrid

/-- Constructor: data filled with 1 (pristine). -/
def init (width height : ℕ) (recoveryRate durability : ℚ) : WearGrid :=
  { width := width, height := height
    recoveryRate := recoveryRate, durability := durability
    data := List.replicate (width * height) 1 }

def outOfRange (g : WearGrid) (x y : ℤ) : Prop :=
  x < 0 ∨ (g.width : ℤ) ≤ x ∨ y < 0 ∨ (g.height : ℤ) ≤ y

instance (g : WearGrid) (x y : ℤ) : Decidable (g.outOfRange x y) := by
  unfold outOfRange; infer_instance

/-- get(x, y): floors both coordinates, returns 1 when out of range
(off-grid is pristine), else the stored health. -/
def get (g : WearGrid) (x y : ℚ) : ℚ :=
  let xi := ⌊x⌋
  let yi := ⌊y⌋
  if g.outOfRange xi yi then 1
  else g.data.getD (yi * g.width + xi).toNat 0

/-- wear(x, y, amount): floors the coordinates, no-op out of range,
else subtracts amount / durability floored at 0. -/
def wear (g : WearGrid) (x y : ℚ) (amount : ℚ) : WearGrid :=
  let xi := ⌊x⌋
  let yi := ⌊y⌋
  if g.outOfRange xi yi then g
  else
    let idx := (yi * g.width + xi).toNat
    let wearAmount := amount / g.durability
    { g with data := g.data.set idx (max 0 (g.data.getD idx 0 - wearAmount)) }

/-- update(dt): cells below 1 recover by recoveryRate * dt, capped at 1. -/
def update (g : WearGrid) (dt : ℚ) : WearGrid :=
  let recovery := g.recoveryRate * dt
  { g with data := g.data.map (fun v => if v < 1 then min 1 (v + recovery) else v) }

/-- getPathCost(x, y, shortcutTendency) =
(1 + health * 10) * (1 - shortcutTendency * 0.8). -/
def getPathCost (g : WearGrid) (x y : ℚ) (shortcutTendency : ℚ) : ℚ :=
  let health := g.get x y
  let baseCost := 1 + health * 10
  baseCost * (1 - shortcutTendency * (8/10))

end WearGrid

/-! ## Diffusion grid (simulation/Diffusion.ts)

The scratch buffer is written in full every update and then copied into
the primary grid; the model therefore carries only the primary data and
`update` is the composite data -> data transform. -/

structure DiffusionGrid where
  width : ℕ
  height : ℕ
  D : ℚ
  absorption : ℚ
  data : List ℚ
  deriving Repr, DecidableEq

namespace DiffusionGrid

def init (width height : ℕ) (D absorption : ℚ) : DiffusionGrid :=
  { width := width, height := height, D := D, absorption := absorption
    data := List.replicate (width * height) 0 }

def setParams (g : DiffusionGrid) (D absorption : ℚ) : DiffusionGrid :=
  { g with D := D, absorption := absorption }

def outOfRange (g : DiffusionGrid) (x y : ℤ) : Prop :=
  x < 0 ∨ (g.width : ℤ) ≤ x ∨ y < 0 ∨ (g.height : ℤ) ≤ y

instance (g : DiffusionGrid) (x y : ℤ) : Decidable (g.outOfRange x y) := by
  unfold outOfRange; infer_instance

/-- get(x, y): floors the coordinates, 0 when out of range. -/
def get (g : DiffusionGrid) (x y : ℚ) : ℚ :=
  let xi := ⌊x⌋
  let yi := ⌊y⌋
  if g.outOfRange xi yi then 0
  else g.data.getD (yi * g.width + xi).toNat 0

/-- emit(x, y, amount): floors the coordinates, no-op out of range, else
adds amount capped at 1. -/
def emit (g : DiffusionGrid) (x y : ℚ) (amount : ℚ) : DiffusionGrid :=
  let xi := ⌊x⌋
  let yi := ⌊y⌋
  if g.outOfRange xi yi then g
  else
    let idx := (yi * g.width + xi).toNat
    { g with data := g.data.set idx (min 1 (g.data.getD idx 0 + amount)) }

/-- The body of the double loop of update for the cell (x, y): 4-neighbor
Laplacian with reflecting boundary, upwind advection, absorption, explicit
Euler step, clamped into [0, 1]. -/
def cellStep (g : DiffusionGrid) (dt windX windY : ℚ) (x y : ℕ) : ℚ :=
  let idx := y * g.width + x
  let c := g.data.getD idx 0
  let cL := if 0 < x then g.data.getD (idx - 1) 0 else c
  let cR := if x < g.width - 1 then g.data.getD (idx + 1) 0 else c
  let cT := if 0 < y then g.data.getD (idx - g.width) 0 else c
  let cB := if y < g.height - 1 then g.data.getD (idx + g.width) 0 else c
  let laplacian := cL + cR + cT + cB - 4 * c
  let advectionX := if 0 < windX then windX * (c - cL) else windX * (cR - c)
  let advectionY := if 0 < windY then windY * (c - cT) else windY * (cB - c)
  let dcdt := g.D * laplacian - g.absorption * c - (advectionX + advectionY)
  max 0 (min 1 (c + dcdt * dt))

/-- update(dt, windX, windY): every cell stepped from the same snapshot
(the buffer swap), written back in row-major order. -/
def update (g : DiffusionGrid) (dt windX windY : ℚ) : DiffusionGrid :=
  { g with
      data := (List.range (g.width * g.height)).map
        (fun idx => g.cellStep dt windX windY (idx % g.width) (idx / g.width)) }

def reset (g : DiffusionGrid) : DiffusionGrid :=
  { g with data := g.data.map (fun _ => 0) }

end DiffusionGrid

/-! ## M/M/1 queue (simulation/Pathfinding.ts, MM1Queue) -/

/-- JavaScript x % 1: the fractional part toward zero. -/
def jsFrac (q : ℚ) : ℚ := q - (if 0 ≤ q then (⌊q⌋ : ℚ) else (⌈q⌉ : ℚ))

structure MM1Queue where
  capacity : ℚ
  bufferSize : ℚ
  arrivalRate : ℚ
  queueLength : ℚ
  packetsServed : ℚ
  packetsDropped : ℚ
  totalLatency : ℚ
  deriving Repr, DecidableEq

/-- The record returned by one MM1Queue.update step. -/
structure MM1StepResult where
  served : ℤ
  dropped : ℚ
  queueLength : ℚ
  deriving Repr, DecidableEq

namespace MM1Queue

def init (capacity bufferSize : ℚ) : MM1Queue :=
  { capacity := capacity, bufferSize := bufferSize, arrivalRate := 0
    queueLength := 0, packetsServed := 0, packetsDropped := 0
    totalLatency := 0 }

def setParams (q : MM1Queue) (capacity bufferSize : ℚ) : MM1Queue :=
  { q with capacity := capacity, bufferSize := bufferSize }

def getUtilization (q : MM1Queue) : ℚ :=
  if q.capacity ≤ 0 then 1 else min 1 (q.arrivalRate / q.capacity)

def getQueueLength (q : MM1Queue) : ℚ := q.queueLength

def getPacketLossRate (q : MM1Queue) : ℚ :=
  let total := q.packetsServed + q.packetsDropped
  if total = 0 then 0 else q.packetsDropped / total

def getAverageLatency (q : MM1Queue) : ℚ :=
  if q.packetsServed = 0 then 0 else q.totalLatency / q.packetsServed

/-- update(dt, arrivalRate): arrivals = floor(lambda dt) plus a Bernoulli
unit on the fractional remainder; the Math.random() draw is the explicit
parameter u (uniform on [0, 1)). -/
def update (q : MM1Queue) (dt arrivalRate u : ℚ) : MM1Queue × MM1StepResult :=
  let q1 := { q with arrivalRate := arrivalRate }
  let expectedArrivals := arrivalRate * dt
  let arrivals : ℚ :=
    (⌊expectedArrivals + (if u < jsFrac expectedArrivals then 1 else 0)⌋ : ℤ)
  let maxService := q1.capacity * dt
  let served := min (q1.queueLength + arrivals) maxService
  let newQueueLength := q1.queueLength + arrivals - served
  let dropped := if q1.bufferSize < newQueueLength then newQueueLength - q1.bufferSize else 0
  let queueLength' := if q1.bufferSize < newQueueLength then q1.bufferSize
    else max 0 newQueueLength
  let latency := queueLength' / max 1 q1.capacity
  ({ q1 with
      queueLength := queueLength'
      packetsServed := q1.packetsServed + served
      packetsDropped := q1.packetsDropped + dropped
      totalLatency := q1.totalLatency + served * latency },
   { served := ⌊served⌋, dropped := dropped, queueLength := queueLength' })

/-- Drive the queue once per element of the draw list, with a fixed dt
and arrival rate, collecting every step result. -/
def runSteps (q : MM1Queue) (dt arrivalRate : ℚ) :
    List ℚ → MM1Queue × List MM1StepResult
  | [] => (q, [])
  | u :: us =>
    let r := q.update dt arrivalRate u
    let rest := runSteps r.1 dt arrivalRate us
    (rest.1, r.2 :: rest.2)

end MM1Queue

/-! ## Boids (simulation/Boids.ts)

THREE.Vector3 is modelled as a triple of reals; length is the Euclidean
norm, normalize divides by `length() || 1` (zero vectors stay zero), and
divideScalar(s) multiplies by 1/s, as in three.js. -/

structure Vec3 where
  x : ℝ
  y : ℝ
  z : ℝ

namespace Vec3

def zero : Vec3 := ⟨0, 0, 0⟩

def add (a b : Vec3) : Vec3 := ⟨a.x + b.x, a.y + b.y, a.z + b.z⟩

def sub (a b : Vec3) : Vec3 := ⟨a.x - b.x, a.y - b.y, a.z - b.z⟩

/-- multiplyScalar. -/
def scale (a : Vec3) (s : ℝ) : Vec3 := ⟨a.x * s, a.y * s, a.z * s⟩

noncomputable def length (a : Vec3) : ℝ :=
  Real.sqrt (a.x * a.x + a.y * a.y + a.z * a.z)

open Classical in
/-- normalize(): divideScalar(length() || 1). -/
noncomputable def normalize (a : Vec3) : Vec3 :=
  a.scale (1 / (if a.length = 0 then 1 else a.length))

noncomputable def distanceTo (a b : Vec3) : ℝ := (a.sub b).length

end Vec3

open Classical in
/-- JavaScript Math.sign. -/
noncomputable def jsSign (v : ℝ) : ℝ :=
  if v < 0 then -1 else if 0 < v then 1 else 0

structure BoidParams where
  separationWeight : ℝ
  alignmentWeight : ℝ
  cohesionWeight : ℝ
  separationRadius : ℝ
  perceptionRadius : ℝ
  maxSpeed : ℝ
  maxForce : ℝ
  boundarySize : ℝ
  boundaryForce : ℝ

noncomputable def DEFAULT_BOID_PARAMS : BoidParams :=
  { separationWeight := 3/2, alignmentWeight := 1, cohesionWeight := 1
    separationRadius := 2, perceptionRadius := 5, maxSpeed := 4
    maxForce := 3/10, boundarySize := 30, boundaryForce := 1/2 }

structure Boid where
  position : Vec3
  velocity : Vec3
  acceleration : Vec3
  alive : Bool

namespace BoidSystem

open Classical in
/-- limitForce: clamp a steering vector to maxForce. -/
noncomputable def limitForce (params : BoidParams) (force : Vec3) : Vec3 :=
  if params.maxForce < force.length then
    (force.normalize).scale params.maxForce
  else force

open Classical in
/-- calculateSeparation.  The `other === boid` reference check of the
source is subsumed by the `d > 0` guard (the boid is at distance 0 from
itself), so the fold runs over the whole alive list. -/
noncomputable def calculateSeparation (params : BoidParams) (b : Boid)
    (others : List Boid) : Vec3 :=
  let sc : Vec3 × ℕ := others.foldl
    (fun p o =>
      let d := b.position.distanceTo o.position
      if 0 < d ∧ d < params.separationRadius then
        (p.1.add ((((b.position.sub o.position).normalize).scale (1 / d))), p.2 + 1)
      else p)
    (Vec3.zero, 0)
  if 0 < sc.2 then
    limitForce params
      ((((sc.1.scale (1 / (sc.2 : ℝ))).normalize).scale params.maxSpeed).sub b.velocity)
  else sc.1

open Classical in
/-- calculateAlignment: average neighbor velocity steering. -/
noncomputable def calculateAlignment (params : BoidParams) (b : Boid)
    (others : List Boid) : Vec3 :=
  let sc : Vec3 × ℕ := others.foldl
    (fun p o =>
      let d := b.position.distanceTo o.position
      if 0 < d ∧ d < params.perceptionRadius then (p.1.add o.velocity, p.2 + 1)
      else p)
    (Vec3.zero, 0)
  if 0 < sc.2 then
    limitForce params
      ((((sc.1.scale (1 / (sc.2 : ℝ))).normalize).scale params.maxSpeed).sub b.velocity)
  else sc.1

open Classical in
/-- calculateCohesion: seek toward the neighbor centroid. -/
noncomputable def calculateCohesion (params : BoidParams) (b : Boid)
    (others : List Boid) : Vec3 :=
  let sc : Vec3 × ℕ := others.foldl
    (fun p o =>
      let d := b.position.distanceTo o.position
      if 0 < d ∧ d < params.perceptionRadius then (p.1.add o.position, p.2 + 1)
      else p)
    (Vec3.zero, 0)
  if 0 < sc.2 then
    limitForce params
      (((((sc.1.scale (1 / (sc.2 : ℝ))).sub b.position).normalize).scale
          params.maxSpeed).sub b.velocity)
  else sc.1

open Classical in
/-- calculateBoundary: constant push back toward the origin on each axis
beyond boundarySize. -/
noncomputable def calculateBoundary (params : BoidParams) (b : Boid) : Vec3 :=
  { x := if params.boundarySize < |b.position.x| then
           -(jsSign b.position.x) * params.boundaryForce else 0
    y := if params.boundarySize < |b.position.y| then
           -(jsSign b.position.y) * params.boundaryForce else 0
    z := if params.boundarySize < |b.position.z| then
           -(jsSign b.position.z) * params.boundaryForce else 0 }

/-- The acceleration accumulated for one boid during the force phase. -/
noncomputable def accelOf (params : BoidParams) (alive : List Boid) (b : Boid) : Vec3 :=
  (((Vec3.zero.add
      ((calculateSeparation params b alive).scale params.separationWeight)).add
      ((calculateAlignment params b alive).scale params.alignmentWeight)).add
      ((calculateCohesion params b alive).scale params.cohesionWeight)).add
    (calculateBoundary params b)

open Classical in
/-- The physics phase for one live boid: velocity += acceleration * dt
(the source's multiplyScalar leaves acceleration * dt stored), speed
clamped to maxSpeed, position += velocity * dt. -/
noncomputable def physicsStep (params : BoidParams) (alive : List Boid)
    (b : Boid) (dt : ℝ) : Boid :=
  let accelerationDt := (accelOf params alive b).scale dt
  let v1 := b.velocity.add accelerationDt
  let v2 := if params.maxSpeed < v1.length then
      (v1.normalize).scale params.maxSpeed
    else v1
  { position := b.position.add (v2.scale dt)
    velocity := v2
    acceleration := accelerationDt
    alive := b.alive }

/-- update(dt): force phase then physics phase over the live boids; dead
boids are left untouched. -/
noncomputable def update (params : BoidParams) (boids : List Boid) (dt : ℝ) :
    List Boid :=
  let alive := boids.filter (fun b => b.alive)
  boids.map (fun b => if b.alive then physicsStep params alive b dt else b)

end BoidSystem

/-! ## A* pathfinder (simulation/Pathfinding.ts)

PathNode parent pointers form a DAG frozen at node creation (only nodes
still in the open set are ever mutated, and parents are always already
closed), so parent links are modelled by value as a nested option.  The
JS array sort with comparator (a, b) => a.f - b.f is a stable ascending
sort by f, modelled by a stable insertion sort. -/

inductive PathNode where
  | mk (x y : ℤ) (g h f : ℝ) (parent : Option PathNode)

namespace PathNode

def x : PathNode → ℤ | .mk v _ _ _ _ _ => v

def y : PathNode → ℤ | .mk _ v _ _ _ _ => v

def g : PathNode → ℝ | .mk _ _ v _ _ _ => v

def h : PathNode → ℝ | .mk _ _ _ v _ _ => v

def f : PathNode → ℝ | .mk _ _ _ _ v _ => v

def parent : PathNode → Option PathNode | .mk _ _ _ _ _ v => v

end PathNode

structure Pathfinder where
  width : ℤ
  height : ℤ
  getCost : ℤ → ℤ → ℝ

namespace Pathfinder

def isValid (pf : Pathfinder) (x y : ℤ) : Prop :=
  0 ≤ x ∧ x < pf.width ∧ 0 ≤ y ∧ y < pf.height

instance (pf : Pathfinder) (x y : ℤ) : Decidable (pf.isValid x y) := by
  unfold isValid; infer_instance

/-- Euclidean distance heuristic. -/
noncomputable def heuristic (x1 y1 x2 y2 : ℤ) : ℝ :=
  Real.sqrt (((x2 - x1 : ℤ) : ℝ) ^ 2 + ((y2 - y1 : ℤ) : ℝ) ^ 2)

open Classical in
/-- Insert a node into a list sorted ascending by f, after any node with
an equal or smaller f (stability). -/
noncomputable def insertByF (n : PathNode) : List PathNode → List PathNode
  | [] => [n]
  | m :: ms => if m.f ≤ n.f then m :: insertByF n ms else n :: m :: ms

/-- Stable ascending sort by f: openSet.sort((a, b) => a.f - b.f). -/
noncomputable def sortByF (l : List PathNode) : List PathNode :=
  l.foldl (fun acc n => insertByF n acc) []

/-- The 8-directional neighbor offsets, in source order. -/
def deltas : List (ℤ × ℤ) :=
  [(0, -1), (0, 1), (-1, 0), (1, 0), (-1, -1), (-1, 1), (1, -1), (1, 1)]

open Classical in
/-- The body of the neighbor loop for one offset: skip invalid or closed
coordinates, otherwise push a new open node or relax an existing one. -/
noncomputable def considerNeighbor (pf : Pathfinder) (gx gy : ℤ)
    (current : PathNode) (closed : List (ℤ × ℤ))
    (openSet : List PathNode) (d : ℤ × ℤ) : List PathNode :=
  let nx := current.x + d.1
  let ny := current.y + d.2
  if ¬ pf.isValid nx ny ∨ (nx, ny) ∈ closed then openSet
  else
    let moveCost : ℝ := if d.1 ≠ 0 ∧ d.2 ≠ 0 then 1414/1000 else 1
    let terrainCost := pf.getCost nx ny
    let g := current.g + moveCost * terrainCost
    let h := heuristic nx ny gx gy
    match openSet.findIdx? (fun n => n.x == nx && n.y == ny) with
    | none => openSet ++ [PathNode.mk nx ny g h (g + h) (some current)]
    | some i =>
      match openSet.get? i with
      | none => openSet
      | some old =>
        if g < old.g then
          openSet.set i (PathNode.mk nx ny g old.h (g + h) (some current))
        else openSet

/-- Path reconstruction by walking parent links (unshift builds the list
from the start forward). -/
def reconstructPath : PathNode → List (ℤ × ℤ)
  | .mk x y _ _ _ none => [(x, y)]
  | .mk x y _ _ _ (some p) => reconstructPath p ++ [(x, y)]

/-- The search loop; the fuel argument is the remaining iteration budget
(maxIterations = width * height at the initial call). -/
noncomputable def searchLoop (pf : Pathfinder) (gx gy : ℤ) :
    ℕ → List PathNode → List (ℤ × ℤ) → List (ℤ × ℤ)
  | _, [], _ => []
  | 0, _ :: _, _ => []
  | fuel + 1, os@(_ :: _), closed =>
    match sortByF os with
    | [] => []
    | current :: rest =>
      if (current.x, current.y) ∈ closed then
        searchLoop pf gx gy fuel rest closed
      else
        let closed1 := (current.x, current.y) :: closed
        if current.x = gx ∧ current.y = gy then reconstructPath current
        else
          let os1 := deltas.foldl (considerNeighbor pf gx gy current closed1) rest
          searchLoop pf gx gy fuel os1 closed1

/-- findPath(sx, sy, gx, gy): floors all four inputs, handles the
degenerate cases, then runs A* with budget width * height. -/
noncomputable def findPath (pf : Pathfinder) (sx sy gx gy : ℚ) : List (ℤ × ℤ) :=
  let sxi := ⌊sx⌋
  let syi := ⌊sy⌋
  let gxi := ⌊gx⌋
  let gyi := ⌊gy⌋
  if sxi = gxi ∧ syi = gyi then [(sxi, syi)]
  else if ¬ pf.isValid sxi syi ∨ ¬ pf.isValid gxi gyi then []
  else
    let h0 := heuristic sxi syi gxi gyi
    let start := PathNode.mk sxi syi 0 h0 (0 + h0) none
    searchLoop pf gxi gyi (pf.width * pf.height).toNat [start] []

end Pathfinder

/-- A 4 x 1 grid whose cost function is constantly 1. -/
def pf4 : Pathfinder := ⟨4, 1, fun _ _ => 1⟩

/-- A single motionless live boid at the origin. -/
def restingBoid : Boid :=
  { position := ⟨0, 0, 0⟩, velocity := ⟨0, 0, 0⟩
    acceleration := ⟨0, 0, 0⟩, alive := true }

/-! ## Shared helper lemmas -/

/-- A property holding on every element of a list and on the fallback
holds on any getD read. -/
theorem listGetD_prop {P : ℚ → Prop} (l : List ℚ) (n : ℕ) (d : ℚ)
    (hd : P d) (hl : ∀ v ∈ l, P v) : P (l.getD n d) := by
  rcases h : l.get? n with _ | v
  · simpa [List.getD_eq_getElem?_getD, ← List.get?_eq_getElem?, h] using hd
  · have hv : v ∈ l := List.get?_mem h
    simpa [List.getD_eq_getElem?_getD, ← List.get?_eq_getElem?, h] using hl v hv

/-- Reading every index of a list back in order reproduces the list. -/
theorem map_getD_range (l : List ℚ) :
    (List.range l.length).map (fun i => l.getD i 0) = l := by
  induction l with
  | nil => simp
  | cons a t ih =>
    rw [List.length_cons, List.range_succ_eq_map]
    simp only [List.map_cons, List.getD_cons_zero, List.map_map]
    refine congrArg (a :: ·) ?_
    calc (List.range t.length).map ((fun i => (a :: t).getD i 0) ∘ (· + 1))
        = (List.range t.length).map (fun i => t.getD i 0) := by
          refine List.map_congr_left ?_
          intro i _
          simp [Function.comp]
      _ = t := ih

/-! ## C2: out-of-range coordinate policy -/

/-- Claim C2 (amended): out-of-range reads return the neutral default
(0 for LogisticGrid and DiffusionGrid, 1 for WearGrid) and out-of-range
set, wear and emit are silent no-ops; consume, which guards only the
flattened index y*width+x, is a no-op returning 0 exactly when that
index falls outside [0, data.length). -/
theorem grid_out_of_range_policy :
    (∀ (g : LogisticGrid) (x y : ℤ) (v : ℚ), g.outOfRange x y →
       g.get x y = 0 ∧ g.set x y v = g) ∧
    (∀ (g : LogisticGrid) (x y : ℤ) (amount : ℚ),
       (y * g.width + x < 0 ∨ (g.data.length : ℤ) ≤ y * g.width + x) →
       g.consume x y amount = (g, 0)) ∧
    (∀ (g : WearGrid) (x y amount : ℚ), g.outOfRange ⌊x⌋ ⌊y⌋ →
       g.get x y = 1 ∧ g.wear x y amount = g) ∧
    (∀ (g : DiffusionGrid) (x y amount : ℚ), g.outOfRange ⌊x⌋ ⌊y⌋ →
       g.get x y = 0 ∧ g.emit x y amount = g) := by
  refine ⟨fun g x y v h => ⟨?_, ?_⟩, fun g x y amount h => ?_,
    fun g x y amount h => ⟨?_, ?_⟩, fun g x y amount h => ⟨?_, ?_⟩⟩
  · rw [LogisticGrid.get, if_pos h]
  · rw [LogisticGrid.set, if_pos h]
  · rw [LogisticGrid.consume]
    simp only [if_pos h]
  · rw [WearGrid.get]
    simp only [if_pos h]
  · rw [WearGrid.wear]
    simp only [if_pos h]
  · rw [DiffusionGrid.get]
    simp only [if_pos h]
  · rw [DiffusionGrid.emit]
    simp only [if_pos h]

/-- Witness for grid_out_of_range_policy at concrete grids and the
out-of-range coordinate (-1, 0) (and flattened index -1 for consume). -/
theorem grid_out_of_range_policy_witness :
    (LogisticGrid.init 2 2 1 10).get (-1) 0 = 0 ∧
    (LogisticGrid.init 2 2 1 10).consume (-1) 0 5 = (LogisticGrid.init 2 2 1 10, 0) ∧
    (WearGrid.init 2 2 (1/100) (1/10)).get (-1) 0 = 1 ∧
    (DiffusionGrid.init 2 2 (1/10) (1/100)).emit (-1) 0 1 = DiffusionGrid.init 2 2 (1/10) (1/100) := by
  refine ⟨(grid_out_of_range_policy.1 _ (-1) 0 0 (by decide)).1,
    grid_out_of_range_policy.2.1 _ (-1) 0 5 (by decide),
    ?_, ?_⟩
  · have h := (grid_out_of_range_policy.2.2.1 (WearGrid.init 2 2 (1/100) (1/10))
      (-1) 0 0 (by norm_num [WearGrid.outOfRange, WearGrid.init])).1
    exact h
  · have h := (grid_out_of_range_policy.2.2.2 (DiffusionGrid.init 2 2 (1/10) (1/100))
      (-1) 0 1 (by norm_num [DiffusionGrid.outOfRange, DiffusionGrid.init])).2
    exact h

/-- Counterexample to claim C2 as stated: on a 2 x 2 grid the coordinate
(2, 0) is out of range, yet consume(2, 0, 5) flattens it to the in-range
index 2, removes 5 units from the aliased cell and returns 5. -/
theorem consume_out_of_range_not_noop_cex :
    (LogisticGrid.init 2 2 1 10).outOfRange 2 0 ∧
    ((LogisticGrid.init 2 2 1 10).consume 2 0 5).2 ≠ 0 ∧
    ((LogisticGrid.init 2 2 1 10).consume 2 0 5).1.data ≠
      (LogisticGrid.init 2 2 1 10).data := by
  refine ⟨by decide, ?_, ?_⟩ <;>
    norm_num [LogisticGrid.consume, LogisticGrid.init, List.replicate,
      show Int.toNat 2 = 2 from rfl, List.set, min_def]

/-! ## C3: path-cost lower bound -/

/-- Claim C3 (amended): for every coordinate and shortcutTendency s in
[0, 1], getPathCost = (1 + health * 10) * (1 - s * 0.8) is at least
1 - s * 0.8, hence at least 1/5; the bound 1 claimed by the spec holds
when s = 0 but not in general. -/
theorem getPathCost_lower_bound (g : WearGrid) (x y s : ℚ)
    (hdata : ∀ v ∈ g.data, 0 ≤ v) (hs0 : 0 ≤ s) (hs1 : s ≤ 1) :
    1 - s * (8/10) ≤ g.getPathCost x y s ∧
    (1/5 : ℚ) ≤ g.getPathCost x y s ∧
    (s = 0 → 1 ≤ g.getPathCost x y s) := by
  have hhealth : 0 ≤ g.get x y := by
    rw [WearGrid.get]
    split
    · norm_num
    · exact listGetD_prop _ _ _ le_rfl hdata
  have hbase : 1 ≤ 1 + g.get x y * 10 := by nlinarith
  have hfac : 1 - s * (8/10) ≤ 1 := by nlinarith
  have hfac5 : (1/5 : ℚ) ≤ 1 - s * (8/10) := by nlinarith
  have hfac0 : 0 ≤ 1 - s * (8/10) := by nlinarith
  have hmain : 1 - s * (8/10) ≤ g.getPathCost x y s := by
    rw [WearGrid.getPathCost]
    nlinarith
  refine ⟨hmain, le_trans hfac5 hmain, fun hs => ?_⟩
  rw [WearGrid.getPathCost]
  nlinarith

/-- Witness for getPathCost_lower_bound on a pristine 2 x 2 grid with
s = 1/2. -/
theorem getPathCost_lower_bound_witness :
    (1/5 : ℚ) ≤ (WearGrid.init 2 2 (1/100) (1/10)).getPathCost 0 0 (1/2) :=
  (getPathCost_lower_bound (WearGrid.init 2 2 (1/100) (1/10)) 0 0 (1/2)
    (by norm_num [WearGrid.init, List.replicate])
    (by norm_num) (by norm_num)).2.1

/-- Counterexample to claim C3 as stated: a fully worn cell (health 0,
obtained by one wear call on a 1 x 1 grid with durability 0.1) with
shortcutTendency 0.5 costs (1 + 0) * (1 - 0.4) = 0.6 < 1. -/
theorem getPathCost_lt_one_cex :
    ((WearGrid.init 1 1 (1/100) (1/10)).wear 0 0 1).getPathCost 0 0 (1/2) = 3/5 ∧
    ¬ (1 ≤ ((WearGrid.init 1 1 (1/100) (1/10)).wear 0 0 1).getPathCost 0 0 (1/2)) := by
  have h : ((WearGrid.init 1 1 (1/100) (1/10)).wear 0 0 1).getPathCost 0 0 (1/2) = 3/5 := by
    norm_num [WearGrid.getPathCost, WearGrid.get, WearGrid.wear, WearGrid.init,
      WearGrid.outOfRange, List.replicate, List.set]
  rw [h]
  norm_num

/-! ## C4: LogisticGrid cell invariant -/

/-- Auxiliary strengthened invariant: K stays positive and every cell
stays in [0, K] along any restricted-reachable state. -/
theorem logisticGrid_inv_aux (g : LogisticGrid) (hg : LogisticGrid.Reachable g) :
    0 < g.K ∧ ∀ v ∈ g.data, 0 ≤ v ∧ v ≤ g.K := by
  induction hg with
  | init width height r K hK =>
    refine ⟨hK, fun v hv => ?_⟩
    rw [LogisticGrid.init] at hv
    simp only [List.mem_replicate] at hv
    obtain ⟨-, rfl⟩ := hv
    exact ⟨hK.le, le_rfl⟩
  | set g x y value _ ih =>
    obtain ⟨hK, hdata⟩ := ih
    rw [LogisticGrid.set]
    split
    · exact ⟨hK, hdata⟩
    · refine ⟨hK, fun v hv => ?_⟩
      rcases List.mem_or_eq_of_mem_set hv with h | h
      · exact hdata v h
      · subst h
        exact ⟨le_max_left _ _, max_le (by exact hK.le) (min_le_left _ _)⟩
  | consume g x y amount ha _ ih =>
    obtain ⟨hK, hdata⟩ := ih
    rw [LogisticGrid.consume]
    split
    · exact ⟨hK, hdata⟩
    · refine ⟨hK, fun v hv => ?_⟩
      rcases List.mem_or_eq_of_mem_set hv with h | h
      · exact hdata v h
      · subst h
        have hcur : 0 ≤ g.data.getD (y * g.width + x).toNat 0 ∧
            g.data.getD (y * g.width + x).toNat 0 ≤ g.K :=
          listGetD_prop _ _ _ ⟨le_rfl, hK.le⟩ hdata
        constructor
        · have := min_le_left (g.data.getD (y * g.width + x).toNat 0) amount
          linarith
        · have : 0 ≤ min (g.data.getD (y * g.width + x).toNat 0) amount :=
            le_min hcur.1 ha
          linarith [hcur.2]
  | update g dt _ ih =>
    obtain ⟨hK, _⟩ := ih
    refine ⟨hK, fun v hv => ?_⟩
    rw [LogisticGrid.update] at hv
    simp only [List.mem_map] at hv
    obtain ⟨N, _, rfl⟩ := hv
    exact ⟨le_max_left _ _, max_le hK.le (min_le_left _ _)⟩
  | reset g _ ih =>
    obtain ⟨hK, _⟩ := ih
    refine ⟨hK, fun v hv => ?_⟩
    rw [LogisticGrid.reset] at hv
    simp only [List.mem_map] at hv
    obtain ⟨N, _, rfl⟩ := hv
    exact ⟨hK.le, le_rfl⟩
  | setParams g r K hK' _ ih =>
    obtain ⟨hK, hdata⟩ := ih
    refine ⟨lt_of_lt_of_le hK hK', fun v hv => ?_⟩
    obtain ⟨h0, h1⟩ := hdata v hv
    exact ⟨h0, le_trans h1 hK'⟩

/-- Claim C4 (amended): along every interleaving of the public
operations whose arguments stay in their documented domains (K > 0 at
construction, consume amounts ≥ 0) and in which setParams never lowers
K, every stored cell value lies in [0, K]. -/
theorem logisticGrid_cell_invariant (g : LogisticGrid)
    (hg : LogisticGrid.Reachable g) : ∀ v ∈ g.data, 0 ≤ v ∧ v ≤ g.K :=
  (logisticGrid_inv_aux g hg).2

/-- Witness: the invariant evaluated at the cell value 10 of a freshly
constructed 2 x 2 grid with K = 10. -/
theorem logisticGrid_cell_invariant_witness :
    0 ≤ (10 : ℚ) ∧ (10 : ℚ) ≤ (LogisticGrid.init 2 2 1 10).K :=
  logisticGrid_cell_invariant _ (LogisticGrid.Reachable.init 2 2 1 10 (by norm_num))
    10 (by norm_num [LogisticGrid.init, List.replicate])

/-- Counterexample to claim C4 as stated: setParams may lower K below
stored cell values — construct a grid at K = 100 (cell value 100), then
setParams(0.5, 50); the cell still holds 100 > K = 50. -/
theorem logisticGrid_cell_invariant_cex :
    ¬ (∀ v ∈ ((LogisticGrid.init 1 1 (1/2) 100).setParams (1/2) 50).data,
        0 ≤ v ∧ v ≤ ((LogisticGrid.init 1 1 (1/2) 100).setParams (1/2) 50).K) := by
  intro h
  have := h 100 (by norm_num [LogisticGrid.init, LogisticGrid.setParams, List.replicate])
  norm_num [LogisticGrid.setParams, LogisticGrid.init] at this

/-! ## C6: equilibrium helper -/

/-- Claim C6: for r > 0 and K > 0, equilibriumPopulation returns the
larger root K/2 + sqrt((K/2)^2 - CK/r) whenever C ≤ rK/4 (the
discriminant is then automatically non-negative), and the collapse
sentinel -1 whenever rK/4 < C (a negative discriminant also yields -1,
but cannot occur in the first branch). -/
theorem equilibriumPopulation_spec (r K C : ℝ) (hr : 0 < r) (hK : 0 < K) :
    (C ≤ r * K / 4 →
      0 ≤ (K / 2) ^ 2 - C * K / r ∧
      equilibriumPopulation r K C = K / 2 + Real.sqrt ((K / 2) ^ 2 - C * K / r)) ∧
    (r * K / 4 < C → equilibriumPopulation r K C = -1) := by
  constructor
  · intro hC
    have h1 : C * K / r ≤ (K / 2) ^ 2 := by
      rw [div_le_iff hr]
      nlinarith
    have hdisc : 0 ≤ (K / 2) ^ 2 - C * K / r := by linarith
    refine ⟨hdisc, ?_⟩
    rw [equilibriumPopulation]
    rw [if_neg (not_lt.mpr hC), if_neg (not_lt.mpr hdisc)]
  · intro hC
    rw [equilibriumPopulation, if_pos hC]

/-- Witness for equilibriumPopulation_spec at r = 1, K = 4, C = 1
(discriminant 0, equilibrium 2 = K/2 + sqrt 0). -/
theorem equilibriumPopulation_spec_witness :
    0 ≤ ((4:ℝ) / 2) ^ 2 - 1 * 4 / 1 ∧
    equilibriumPopulation 1 4 1 = 4 / 2 + Real.sqrt (((4:ℝ) / 2) ^ 2 - 1 * 4 / 1) :=
  (equilibriumPopulation_spec 1 4 1 one_pos (by norm_num)).1 (by norm_num)

/-! ## C8: conservation under zero forcing -/

/-- With D = 0, absorption = 0 and zero wind, the per-cell step is the
identity on cells already in [0, 1]. -/
theorem cellStep_zero_forcing (g : DiffusionGrid) (dt : ℚ)
    (hD : g.D = 0) (habs : g.absorption = 0)
    (hb : ∀ v ∈ g.data, 0 ≤ v ∧ v ≤ 1) (x y : ℕ) :
    g.cellStep dt 0 0 x y = g.data.getD (y * g.width + x) 0 := by
  have hc : 0 ≤ g.data.getD (y * g.width + x) 0 ∧
      g.data.getD (y * g.width + x) 0 ≤ 1 :=
    listGetD_prop _ _ _ ⟨le_rfl, by norm_num⟩ hb
  rw [DiffusionGrid.cellStep]
  simp only [hD, habs, lt_irrefl, if_false, zero_mul, sub_zero, zero_sub,
    zero_add, neg_zero, add_zero, mul_zero]
  rw [min_eq_right hc.2, max_eq_right hc.1]

/-- Claim C8: a DiffusionGrid with D = 0 and absorption = 0 is left
cell-for-cell unchanged by update(dt, 0, 0), for every dt and every
well-formed grid state with cells in [0, 1]. -/
theorem diffusion_zero_forcing_conservation (g : DiffusionGrid) (dt : ℚ)
    (hD : g.D = 0) (habs : g.absorption = 0)
    (hlen : g.data.length = g.width * g.height)
    (hb : ∀ v ∈ g.data, 0 ≤ v ∧ v ≤ 1) :
    (g.update dt 0 0).data = g.data := by
  rw [DiffusionGrid.update]
  have hcell : ∀ i, g.cellStep dt 0 0 (i % g.width) (i / g.width) =
      g.data.getD i 0 := by
    intro i
    rw [cellStep_zero_forcing g dt hD habs hb]
    congr 1
    rw [mul_comm]
    exact Nat.div_add_mod i g.width
  calc (List.range (g.width * g.height)).map
        (fun idx => g.cellStep dt 0 0 (idx % g.width) (idx / g.width))
      = (List.range (g.width * g.height)).map (fun i => g.data.getD i 0) := by
        exact List.map_congr_left (fun i _ => hcell i)
    _ = (List.range g.data.length).map (fun i => g.data.getD i 0) := by rw [hlen]
    _ = g.data := map_getD_range g.data

/-- Witness for diffusion_zero_forcing_conservation on a concrete 2 x 2
grid with mixed cell values and dt = 3. -/
theorem diffusion_zero_forcing_conservation_witness :
    ((DiffusionGrid.mk 2 2 0 0 [0, 1/2, 1, 1/4]).update 3 0 0).data =
      (DiffusionGrid.mk 2 2 0 0 [0, 1/2, 1, 1/4]).data :=
  diffusion_zero_forcing_conservation _ 3 rfl rfl (by norm_num)
    (by norm_num)

/-! ## C7: queue saturation -/

/-- One update(1, 100) step of a queue with capacity 10, bufferSize 5 and
a non-negative backlog: 100 packets arrive (the Bernoulli fraction is 0,
so the draw never rounds up), 10 are served, the queue saturates at 5 and
the rest are dropped. -/
theorem mm1_step_saturates (q : MM1Queue) (u : ℚ)
    (hcap : q.capacity = 10) (hbuf : q.bufferSize = 5)
    (hq : 0 ≤ q.queueLength) (hu : 0 ≤ u) :
    (q.update 1 100 u).2.dropped = q.queueLength + 85 ∧
    (q.update 1 100 u).2.queueLength = 5 ∧
    (q.update 1 100 u).1.queueLength = 5 ∧
    (q.update 1 100 u).1.capacity = 10 ∧
    (q.update 1 100 u).1.bufferSize = 5 := by
  have hfrac : jsFrac ((100 : ℚ) * 1) = 0 := by norm_num [jsFrac]
  have harr : (⌊(100 : ℚ) * 1 + 0⌋ : ℤ) = 100 := by norm_num
  have hserved : min (q.queueLength + (100 : ℚ)) (10 * 1) = 10 * 1 :=
    min_eq_right (by linarith)
  simp only [MM1Queue.update, hcap, hbuf, hfrac, not_lt.mpr hu, if_false]
  rw [harr]
  push_cast
  rw [hserved]
  have hover : (5 : ℚ) < q.queueLength + 100 - 10 * 1 := by linarith
  rw [if_pos hover, if_pos hover]
  norm_num
  ring

/-- Driving any saturable queue state with repeated update(1, 100) keeps
every step result at dropped > 0 and queue length 5. -/
theorem mm1_run_saturates (us : List ℚ) : ∀ (q : MM1Queue),
    q.capacity = 10 → q.bufferSize = 5 → 0 ≤ q.queueLength →
    (∀ u ∈ us, 0 ≤ u) →
    (∀ res ∈ (q.runSteps 1 100 us).2, 0 < res.dropped ∧ res.queueLength = 5) ∧
    (us ≠ [] → (q.runSteps 1 100 us).1.queueLength = 5) := by
  induction us with
  | nil =>
    intro q _ _ _ _
    exact ⟨by simp [MM1Queue.runSteps], by simp⟩
  | cons u us ih =>
    intro q hcap hbuf hq hus
    obtain ⟨hd, hql, hql1, hcap1, hbuf1⟩ :=
      mm1_step_saturates q u hcap hbuf hq (hus u (List.mem_cons_self u us))
    have hrest := ih (q.update 1 100 u).1 hcap1 hbuf1 (by rw [hql1]; norm_num)
      (fun v hv => hus v (List.mem_cons_of_mem u hv))
    constructor
    · intro res hres
      simp only [MM1Queue.runSteps, List.mem_cons] at hres
      rcases hres with rfl | hres
      · exact ⟨by rw [hd]; linarith, hql⟩
      · exact hrest.1 res hres
    · intro _
      rcases List.eq_nil_or_concat us with rfl | ⟨us1, u1, rfl⟩
      · simpa [MM1Queue.runSteps] using hql1
      · have hne : us1.concat u1 ≠ [] := by simp
        simpa [MM1Queue.runSteps] using hrest.2 hne

/-- Claim C7: MM1Queue(capacity 10, bufferSize 5) driven by
update(dt = 1, arrivalRate = 100) reports dropped > 0 and queue length 5
at every step (in particular from the first step on), for any sequence
of non-negative random draws. -/
theorem mm1_queue_saturation (us : List ℚ) (hus : ∀ u ∈ us, 0 ≤ u) :
    (∀ res ∈ ((MM1Queue.init 10 5).runSteps 1 100 us).2,
        0 < res.dropped ∧ res.queueLength = 5) ∧
    (us ≠ [] → ((MM1Queue.init 10 5).runSteps 1 100 us).1.getQueueLength = 5) :=
  mm1_run_saturates us (MM1Queue.init 10 5) rfl rfl le_rfl hus

/-- Witness for mm1_queue_saturation with the single draw 1/2. -/
theorem mm1_queue_saturation_witness :
    (∀ res ∈ ((MM1Queue.init 10 5).runSteps 1 100 [1/2]).2,
        0 < res.dropped ∧ res.queueLength = 5) ∧
    ([(1/2 : ℚ)] ≠ [] → ((MM1Queue.init 10 5).runSteps 1 100 [1/2]).1.getQueueLength = 5) :=
  mm1_queue_saturation [1/2] (by norm_num)

/-! ## C10: speed-set closure -/

/-- A loop tick never changes the speed. -/
theorem loop_speed (e : SimulationEngine) (t : ℚ) :
    (SimulationEngine.loop e t).1.state.speed = e.state.speed := by
  rw [SimulationEngine.loop]
  split <;> rfl

/-- Every engine event keeps the speed inside SPEED_OPTIONS. -/
theorem step_speed_mem (e : SimulationEngine) (ev : SimulationEngine.Event)
    (h : e.state.speed ∈ SPEED_OPTIONS) :
    (SimulationEngine.step e ev).1.state.speed ∈ SPEED_OPTIONS := by
  cases ev with
  | tick t => simpa [SimulationEngine.step, loop_speed] using h
  | play => simpa [SimulationEngine.step, SimulationEngine.play] using h
  | pause => simpa [SimulationEngine.step, SimulationEngine.pause] using h
  | togglePlay =>
    simp only [SimulationEngine.step, SimulationEngine.togglePlay]
    split <;>
      simpa [SimulationEngine.pause, SimulationEngine.play] using h
  | setSpeed v =>
    simp only [SimulationEngine.step, SimulationEngine.setSpeed]
    split
    · assumption
    · exact h
  | faster =>
    simp only [SPEED_OPTIONS, List.mem_cons, List.not_mem_nil, or_false] at h
    rcases h with h | h | h | h | h <;>
      norm_num [SimulationEngine.step, SimulationEngine.faster,
        SimulationEngine.jsIndexOf, SimulationEngine.speedAt, SPEED_OPTIONS, h]
  | slower =>
    simp only [SPEED_OPTIONS, List.mem_cons, List.not_mem_nil, or_false] at h
    rcases h with h | h | h | h | h <;>
      norm_num [SimulationEngine.step, SimulationEngine.slower,
        SimulationEngine.jsIndexOf, SimulationEngine.speedAt, SPEED_OPTIONS, h]
  | reset => simpa [SimulationEngine.step, SimulationEngine.reset] using h

/-- Any event run from a speed in SPEED_OPTIONS stays in SPEED_OPTIONS. -/
theorem run_speed_mem (evs : List SimulationEngine.Event) :
    ∀ e : SimulationEngine, e.state.speed ∈ SPEED_OPTIONS →
    (SimulationEngine.run e evs).1.state.speed ∈ SPEED_OPTIONS := by
  induction evs with
  | nil => intro e h; simpa [SimulationEngine.run] using h
  | cons ev evs ih =>
    intro e h
    simpa [SimulationEngine.run] using ih _ (step_speed_mem e ev h)

/-- Claim C10: from a fresh engine the speed always lies in
{0.25, 0.5, 1, 2, 4} across any event sequence; setSpeed with a value
outside that set leaves the engine unchanged; faster() at speed 4 and
slower() at speed 0.25 are no-ops. -/
theorem engine_speed_closure :
    (∀ evs : List SimulationEngine.Event,
       (SimulationEngine.run SimulationEngine.init evs).1.state.speed ∈ SPEED_OPTIONS) ∧
    (∀ (e : SimulationEngine) (v : ℚ), v ∉ SPEED_OPTIONS →
       SimulationEngine.setSpeed e v = e) ∧
    (∀ e : SimulationEngine, e.state.speed = 4 → SimulationEngine.faster e = e) ∧
    (∀ e : SimulationEngine, e.state.speed = 1/4 → SimulationEngine.slower e = e) := by
  refine ⟨fun evs => run_speed_mem evs _ (by norm_num [SimulationEngine.init, SPEED_OPTIONS]),
    fun e v hv => ?_, fun e h4 => ?_, fun e h4 => ?_⟩
  · rw [SimulationEngine.setSpeed, if_neg hv]
  · norm_num [SimulationEngine.faster, SimulationEngine.jsIndexOf, SPEED_OPTIONS, h4]
  · norm_num [SimulationEngine.slower, SimulationEngine.jsIndexOf, SPEED_OPTIONS, h4]

/-- Witness for engine_speed_closure: one faster event from the fresh
engine, setSpeed(3), faster at 4 and slower at 0.25 on concrete
engines. -/
theorem engine_speed_closure_witness :
    (SimulationEngine.run SimulationEngine.init [SimulationEngine.Event.faster]).1.state.speed ∈ SPEED_OPTIONS ∧
    SimulationEngine.setSpeed ⟨⟨true, 1, 0⟩, 0, 0⟩ 3 = ⟨⟨true, 1, 0⟩, 0, 0⟩ ∧
    SimulationEngine.faster ⟨⟨true, 4, 0⟩, 0, 0⟩ = ⟨⟨true, 4, 0⟩, 0, 0⟩ ∧
    SimulationEngine.slower ⟨⟨true, 1/4, 0⟩, 0, 0⟩ = ⟨⟨true, 1/4, 0⟩, 0, 0⟩ :=
  ⟨engine_speed_closure.1 [SimulationEngine.Event.faster],
   engine_speed_closure.2.1 _ 3 (by norm_num [SPEED_OPTIONS]),
   engine_speed_closure.2.2.1 _ rfl,
   engine_speed_closure.2.2.2 _ rfl⟩

/-! ## C1: fixed-step determinism -/

/-- Every call emitted by the accumulator drain passes exactly FIXED_DT,
and the drained elapsed value advances by exactly FIXED_DT per call. -/
theorem drain_spec (elapsed acc : ℚ) :
    (∀ c ∈ (SimulationEngine.drain elapsed acc).1, c.1 = FIXED_DT) ∧
    (SimulationEngine.drain elapsed acc).2.1 =
      elapsed + (SimulationEngine.drain elapsed acc).1.length * FIXED_DT := by
  induction elapsed, acc using SimulationEngine.drain.induct with
  | case1 elapsed acc h ih =>
    obtain ⟨ih1, ih2⟩ := ih
    rw [SimulationEngine.drain, dif_pos h]
    constructor
    · intro c hc
      rcases List.mem_cons.mp hc with rfl | hc
      · rfl
      · exact ih1 c hc
    · simp only [List.length_cons]
      rw [ih2]
      push_cast
      ring
  | case2 elapsed acc h =>
    rw [SimulationEngine.drain, dif_neg h]
    simp

/-- One loop tick: every update call carries FIXED_DT, and elapsed
advances by the number of calls times FIXED_DT. -/
theorem loop_fixed_dt (e : SimulationEngine) (t : ℚ) :
    (∀ c ∈ (SimulationEngine.loop e t).2, c.1 = FIXED_DT) ∧
    (SimulationEngine.loop e t).1.state.elapsed =
      e.state.elapsed + (SimulationEngine.loop e t).2.length * FIXED_DT := by
  rw [SimulationEngine.loop]
  split
  · exact ⟨by simp, by simp⟩
  · exact ⟨(drain_spec _ _).1, by simpa using (drain_spec _ _).2⟩

/-- Any reset-free event run: all update calls carry FIXED_DT and
elapsed advances by exactly FIXED_DT per call. -/
theorem run_fixed_dt : ∀ (evs : List SimulationEngine.Event),
    SimulationEngine.Event.reset ∉ evs → ∀ e : SimulationEngine,
    (∀ c ∈ (SimulationEngine.run e evs).2, c.1 = FIXED_DT) ∧
    (SimulationEngine.run e evs).1.state.elapsed =
      e.state.elapsed + (SimulationEngine.run e evs).2.length * FIXED_DT := by
  intro evs
  induction evs with
  | nil =>
    intro _ e
    simp [SimulationEngine.run]
  | cons ev evs ih =>
    intro hnr e
    have hev : ev ≠ SimulationEngine.Event.reset :=
      fun h => hnr (h ▸ List.mem_cons_self ev evs)
    have hnr2 : SimulationEngine.Event.reset ∉ evs :=
      fun h => hnr (List.mem_cons_of_mem ev h)
    have hstep : (∀ c ∈ (SimulationEngine.step e ev).2, c.1 = FIXED_DT) ∧
        (SimulationEngine.step e ev).1.state.elapsed =
          e.state.elapsed + (SimulationEngine.step e ev).2.length * FIXED_DT := by
      cases ev with
      | tick t => exact loop_fixed_dt e t
      | play => simp [SimulationEngine.step, SimulationEngine.play]
      | pause => simp [SimulationEngine.step, SimulationEngine.pause]
      | togglePlay =>
        simp only [SimulationEngine.step, SimulationEngine.togglePlay]
        split <;> simp [SimulationEngine.pause, SimulationEngine.play]
      | setSpeed v =>
        simp only [SimulationEngine.step, SimulationEngine.setSpeed]
        split <;> simp
      | faster =>
        simp only [SimulationEngine.step, SimulationEngine.faster]
        split <;> simp
      | slower =>
        simp only [SimulationEngine.step, SimulationEngine.slower]
        split <;> simp
      | reset => exact absurd rfl hev
    obtain ⟨s1, s2⟩ := hstep
    obtain ⟨r1, r2⟩ := ih hnr2 (SimulationEngine.step e ev).1
    constructor
    · intro c hc
      simp only [SimulationEngine.run, List.mem_append] at hc
      rcases hc with hc | hc
      · exact s1 c hc
      · exact r1 c hc
    · simp only [SimulationEngine.run, List.length_append]
      rw [r2, s2]
      push_cast
      ring

/-- Claim C1: from a fresh engine, across any reset-free event sequence,
every update invocation passes exactly FIXED_DT = 1/60 as dt, and after
N update invocations the elapsed reported by getState equals
N * FIXED_DT exactly. -/
theorem scheduler_fixed_dt (evs : List SimulationEngine.Event)
    (hnr : SimulationEngine.Event.reset ∉ evs) :
    (∀ c ∈ (SimulationEngine.run SimulationEngine.init evs).2, c.1 = FIXED_DT) ∧
    (SimulationEngine.run SimulationEngine.init evs).1.getState.elapsed =
      ((SimulationEngine.run SimulationEngine.init evs).2.length : ℚ) * FIXED_DT := by
  obtain ⟨h1, h2⟩ := run_fixed_dt evs hnr SimulationEngine.init
  refine ⟨h1, ?_⟩
  rw [SimulationEngine.getState, h2]
  norm_num [SimulationEngine.init]

/-- Witness for scheduler_fixed_dt: a single tick at timestamp 20
(raw dt 0.02, one update call). -/
theorem scheduler_fixed_dt_witness :
    (∀ c ∈ (SimulationEngine.run SimulationEngine.init
        [SimulationEngine.Event.tick 20]).2, c.1 = FIXED_DT) ∧
    (SimulationEngine.run SimulationEngine.init
        [SimulationEngine.Event.tick 20]).1.getState.elapsed =
      ((SimulationEngine.run SimulationEngine.init
        [SimulationEngine.Event.tick 20]).2.length : ℚ) * FIXED_DT :=
  scheduler_fixed_dt [SimulationEngine.Event.tick 20] (by simp)

/-! ## C9: boid speed cap -/

theorem Vec3.length_nonneg (v : Vec3) : 0 ≤ v.length := Real.sqrt_nonneg _

/-- Scaling a vector scales its length by the absolute factor. -/
theorem Vec3.length_scale (v : Vec3) (c : ℝ) :
    (v.scale c).length = |c| * v.length := by
  rw [Vec3.length, Vec3.length, Vec3.scale]
  have hc : v.x * c * (v.x * c) + v.y * c * (v.y * c) + v.z * c * (v.z * c) =
      c ^ 2 * (v.x * v.x + v.y * v.y + v.z * v.z) := by ring
  simp only [hc]
  rw [Real.sqrt_mul (sq_nonneg c), Real.sqrt_sq_eq_abs]

/-- Normalizing a vector of positive length and rescaling to m yields a
vector of length |m|. -/
theorem Vec3.length_normalize_scale (v : Vec3) (m : ℝ) (hv : 0 < v.length) :
    ((v.normalize).scale m).length = |m| := by
  rw [Vec3.normalize, if_neg (ne_of_gt hv)]
  rw [Vec3.length_scale, Vec3.length_scale]
  rw [abs_of_nonneg (by positivity : (0:ℝ) ≤ 1 / v.length)]
  field_simp

/-- Claim C9: after any BoidSystem.update, every boid whose alive flag
is true has velocity magnitude at most maxSpeed (maxSpeed taken
non-negative, as in every configuration the scenarios use). -/
theorem boid_speed_cap (params : BoidParams) (boids : List Boid) (dt : ℝ)
    (hms : 0 ≤ params.maxSpeed) :
    ∀ b ∈ BoidSystem.update params boids dt, b.alive = true →
      b.velocity.length ≤ params.maxSpeed := by
  intro b hb halive
  rw [BoidSystem.update] at hb
  simp only [List.mem_map] at hb
  obtain ⟨a, ha, rfl⟩ := hb
  by_cases haa : a.alive
  · simp only [haa, if_true]
    rw [BoidSystem.physicsStep]
    simp only []
    split
    · next hlt =>
      have hpos : 0 < (a.velocity.add
          ((BoidSystem.accelOf params (boids.filter fun b => b.alive) a).scale dt)).length :=
        lt_of_le_of_lt hms hlt
      rw [Vec3.length_normalize_scale _ _ hpos, abs_of_nonneg hms]
    · next hlt => exact not_lt.mp hlt
  · simp only [haa, if_false] at halive ⊢
    exact absurd halive (by simpa using haa)

/-- Witness for boid_speed_cap: the one boid produced by updating a
single resting boid under the default parameters for one step. -/
theorem boid_speed_cap_witness :
    (BoidSystem.physicsStep DEFAULT_BOID_PARAMS [restingBoid] restingBoid
        1).velocity.length ≤ DEFAULT_BOID_PARAMS.maxSpeed :=
  boid_speed_cap DEFAULT_BOID_PARAMS [restingBoid] 1
    (by norm_num [DEFAULT_BOID_PARAMS]) _
    (by simp [BoidSystem.update, restingBoid]) rfl

/-! ## C5: A* results -/

/-- Claim C5 (amended): on a uniform-cost grid findPath(0,0,3,0) returns
exactly the 4-element path (0,0),(1,0),(2,0),(3,0) of strictly
increasing x; an out-of-bounds start or goal whose floored start differs
from its floored goal returns the empty sequence; equal floored start
and goal return the single-coordinate path immediately, even out of
bounds. -/
theorem findPath_results :
    pf4.findPath 0 0 3 0 = [(0, 0), (1, 0), (2, 0), (3, 0)] ∧
    (∀ (pf : Pathfinder) (sx sy gx gy : ℚ),
      ¬ (⌊sx⌋ = ⌊gx⌋ ∧ ⌊sy⌋ = ⌊gy⌋) →
      (¬ pf.isValid ⌊sx⌋ ⌊sy⌋ ∨ ¬ pf.isValid ⌊gx⌋ ⌊gy⌋) →
      pf.findPath sx sy gx gy = []) ∧
    (∀ (pf : Pathfinder) (sx sy gx gy : ℚ),
      ⌊sx⌋ = ⌊gx⌋ → ⌊sy⌋ = ⌊gy⌋ →
      pf.findPath sx sy gx gy = [(⌊sx⌋, ⌊sy⌋)]) := by
  refine ⟨?_, fun pf sx sy gx gy h1 h2 => ?_, fun pf sx sy gx gy h1 h2 => ?_⟩
  · rw [Pathfinder.findPath]
    norm_num [Pathfinder.isValid, pf4]
    simp only [show Int.toNat 4 = 4 from rfl]
    simp +decide [Pathfinder.searchLoop, Pathfinder.sortByF, Pathfinder.insertByF,
      Pathfinder.considerNeighbor, Pathfinder.deltas, Pathfinder.reconstructPath,
      Pathfinder.isValid, PathNode.x, PathNode.y, PathNode.g, PathNode.h, PathNode.f,
      PathNode.parent, List.findIdx?_nil]
  · simp only [Pathfinder.findPath]
    rw [if_neg h1, if_pos h2]
  · simp only [Pathfinder.findPath]
    rw [if_pos ⟨h1, h2⟩]

/-- Witness for findPath_results: empty result for the in-range start
(0,0) and out-of-range goal (10,0) on the 4 x 1 grid, and the immediate
single-coordinate path for the coincident fractional start/goal
(5.5, 5.5) and (5.9, 5.2). -/
theorem findPath_results_witness :
    pf4.findPath 0 0 10 0 = [] ∧
    pf4.findPath (11/2) (11/2) (59/10) (26/5) = [(5, 5)] := by
  constructor
  · refine findPath_results.2.1 pf4 0 0 10 0 (by norm_num) (Or.inr (by norm_num [Pathfinder.isValid, pf4]))
  · have h := findPath_results.2.2 pf4 (11/2) (11/2) (59/10) (26/5)
      (by norm_num) (by norm_num)
    rw [h]
    norm_num

/-- Counterexample to claim C5 as stated: start == goal is tested before
bounds, so the out-of-bounds findPath(-1, 0, -1, 0) returns the
single-coordinate path [(-1, 0)], not the empty sequence. -/
theorem findPath_oob_start_eq_goal_cex :
    ¬ pf4.isValid ⌊(-1 : ℚ)⌋ ⌊(0 : ℚ)⌋ ∧
    pf4.findPath (-1) 0 (-1) 0 = [(-1, 0)] := by
  constructor
  · norm_num [Pathfinder.isValid, pf4]
  · norm_num [Pathfinder.findPath]
